import Mathlib

/-!
Verification of the GoStreamProxy reverse proxy (Go, three variants:
`main.go` and two earlier revisions `part_001` / `part_002`).

The development shallowly embeds the route table (`findRoute`,
`loadRoutes`), the buffer pool (`bufferPool.Get`/`Put`), the request
Director, the response shaper (`ModifyResponse`) and the handler
pipeline of each variant, and proves the frozen specification claims
about them.

Conventions:
* Go strings are Lean `String`s; the character-level splitting done by
  `strings.SplitN(s, "/", 2)` is embedded on `List Char`.
* Go `map[string]string` values (the route table, HTTP headers) are
  association lists `List (String × String)`; `http.Header.Get/Set/Del`
  become `hGet`/`hSet`/`hDel` (all header names used by the program are
  already in canonical MIME form, so exact string keys are faithful).
* `time.Time` modification stamps are `Int`, with `t.After(u)` embedded
  as `u < t`.
* `int64 ContentLength` is `Int` (it can be `-1` for unknown length).
-/

namespace GoStreamProxy

/-! ### Path splitting: `strings.TrimPrefix(path, "/")` and `strings.SplitN(_, "/", 2)` -/

/-- Embeds `strings.TrimPrefix(path, "/")`: remove one leading slash if present. -/
def trimSlashOnce : List Char → List Char
  | '/' :: cs => cs
  | cs => cs

/-- Split a character list at the first `'/'`: `none` when the list has no
slash, otherwise the part before the first slash and the part after it.
This is the core of `strings.SplitN(s, "/", 2)`. -/
def splitFirstSlash : List Char → Option (List Char × List Char)
  | [] => none
  | c :: cs =>
    if c = '/' then some ([], cs)
    else
      match splitFirstSlash cs with
      | none => none
      | some (a, b) => some (c :: a, b)

/-- Embeds `strings.SplitN(s, "/", 2)`: the whole string when it has no
slash, otherwise the two parts around the first slash. -/
def goSplitN2 (cs : List Char) : List (List Char) :=
  match splitFirstSlash cs with
  | none => [cs]
  | some (a, b) => [a, b]

/-- Go map point lookup `routes[prefix]` on the association-list model. -/
def lookupRoute (routes : List (String × String)) (k : String) : Option String :=
  (routes.find? (fun p => p.1 == k)).map (fun p => p.2)

/-- Embeds `findRoute` (identical in all three variants): split the path
into first segment and remainder after stripping one leading slash, and
look the first segment up in the route table. Returns
`(mapped target, remaining path, found)`. -/
def findRoute (path : String) (routes : List (String × String)) :
    String × String × Bool :=
  match goSplitN2 (trimSlashOnce path.toList) with
  | [] => ("", "", false)
  | pfx :: rest =>
    match lookupRoute routes (String.mk pfx) with
    | some route =>
      (route,
       match rest with
       | [] => ""
       | r :: _ => String.mk r,
       true)
    | none => ("", "", false)

/-! ### Spec-side path functions (from the claim's words, for refinement) -/

/-- Follows the claim's words: the first path segment is everything up to
the first slash after stripping one leading slash. -/
def specFirstSeg (p : String) : String :=
  String.mk ((trimSlashOnce p.toList).takeWhile (fun c => c != '/'))

/-- Follows the claim's words: the remainder is everything after the
separator following the first segment, or empty if there is none. -/
def specRemainder (p : String) : String :=
  let t := trimSlashOnce p.toList
  let seg := t.takeWhile (fun c => c != '/')
  if seg.length < t.length then String.mk (t.drop (seg.length + 1)) else ""

/-- Characterisation of `splitFirstSlash` by `takeWhile` and `drop`. -/
theorem splitFirstSlash_spec (cs : List Char) :
    (splitFirstSlash cs = none ∧ cs.takeWhile (fun c => c != '/') = cs) ∨
    (splitFirstSlash cs =
        some (cs.takeWhile (fun c => c != '/'),
              cs.drop ((cs.takeWhile (fun c => c != '/')).length + 1)) ∧
      (cs.takeWhile (fun c => c != '/')).length < cs.length) := by
  induction cs with
  | nil => exact Or.inl ⟨rfl, rfl⟩
  | cons c cs ih =>
    by_cases hc : c = '/'
    · subst hc
      refine Or.inr ⟨?_, ?_⟩
      · simp [splitFirstSlash, List.takeWhile]
      · simp [List.takeWhile]
    · have hb : (c != '/') = true := by simpa using hc
      rcases ih with ⟨h1, h2⟩ | ⟨h1, h2⟩
      · refine Or.inl ⟨?_, ?_⟩
        · simp [splitFirstSlash, hc, h1]
        · simp [List.takeWhile, hb, h2]
      · refine Or.inr ⟨?_, ?_⟩
        · simp [splitFirstSlash, hc, h1, List.takeWhile, hb]
        · simp [List.takeWhile, hb]
          omega

/-- Claim C5: for every path `p`, `findRoute` finds a route iff the first
path segment of `p` (after stripping one leading slash, case-sensitively)
is a key of the route table, and the returned remainder is everything
after the separator following that first segment, or empty if none. -/
theorem findRoute_matches_spec (p : String) (routes : List (String × String)) :
    findRoute p routes =
      match lookupRoute routes (specFirstSeg p) with
      | some route => (route, specRemainder p, true)
      | none => ("", "", false) := by
  unfold findRoute specFirstSeg specRemainder goSplitN2
  rcases splitFirstSlash_spec (trimSlashOnce p.toList) with ⟨h1, h2⟩ | ⟨h1, h2⟩
  · rw [h1]
    simp only [h2]
    have hlt : ¬ (trimSlashOnce p.toList).length < (trimSlashOnce p.toList).length :=
      lt_irrefl _
    cases lookupRoute routes (String.mk (trimSlashOnce p.toList)) <;>
      simp [hlt]
  · rw [h1]
    cases h : lookupRoute routes
        (String.mk ((trimSlashOnce p.toList).takeWhile (fun c => c != '/'))) <;>
      simp_all [String.toList]

/-- Claim C10: for the paths `"/"` and `""` the lookup computes the empty
string as the first segment, so it finds a route iff the empty string is
itself a key of the table, with empty remainder; it never falls through
to any other route. -/
theorem findRoute_root_and_empty (routes : List (String × String)) :
    findRoute "/" routes = findRoute "" routes ∧
    findRoute "/" routes =
      (match lookupRoute routes "" with
       | some route => (route, "", true)
       | none => ("", "", false)) := by
  have h1 : ("/" : String).toList = ['/'] := rfl
  have h2 : ("" : String).toList = [] := rfl
  constructor <;>
    · cases h : lookupRoute routes "" <;>
        simp [findRoute, goSplitN2, splitFirstSlash, trimSlashOnce, h1, h2, h,
          String.mk]

/-! ### HTTP headers: `http.Header` Get / Set / Del on an association list -/

/-- Embeds `http.Header.Get`: first value stored under the key, if any (Go returns
the empty string when the key is absent; callers below use `getD ""` where
that distinction matters). -/
def hGet (hs : List (String × String)) (k : String) : Option String :=
  (hs.find? (fun p => p.1 == k)).map (fun p => p.2)

/-- Embeds `http.Header.Set`: replace every value stored under the key. -/
def hSet (hs : List (String × String)) (k v : String) : List (String × String) :=
  (k, v) :: hs.filter (fun p => p.1 != k)

/-- Embeds `http.Header.Del`: remove the key. -/
def hDel (hs : List (String × String)) (k : String) : List (String × String) :=
  hs.filter (fun p => p.1 != k)

theorem hGet_hSet_same (hs : List (String × String)) (k v : String) :
    hGet (hSet hs k v) k = some v := by
  simp [hGet, hSet, List.find?]

theorem hGet_filter_ne (k k' : String) (h : k ≠ k') (hs : List (String × String)) :
    hGet (hs.filter (fun p => p.1 != k)) k' = hGet hs k' := by
  induction hs with
  | nil => rfl
  | cons p hs ih =>
    by_cases hp : p.1 = k
    · have hpk : (p.1 != k) = false := by simp [hp]
      have hpk' : (p.1 == k') = false := by simp [hp, h]
      simp [hGet, List.filter, hpk, List.find?, hpk']
      simpa [hGet] using ih
    · have hpk : (p.1 != k) = true := by simp [hp]
      by_cases hq : p.1 = k'
      · have hq2 : (p.1 == k') = true := by simp [hq]
        simp [hGet, List.filter, hpk, List.find?, hq2]
      · have hq2 : (p.1 == k') = false := by simp [hq]
        simp [hGet, List.filter, hpk, List.find?, hq2]
        simpa [hGet] using ih

theorem hGet_hSet_ne (k k' : String) (h : k ≠ k') (hs : List (String × String))
    (v : String) : hGet (hSet hs k v) k' = hGet hs k' := by
  have hk : (k == k') = false := by simp [h]
  simp [hSet, hGet, List.find?, hk]
  simpa [hGet] using hGet_filter_ne k k' h hs

theorem hGet_hDel_same (hs : List (String × String)) (k : String) :
    hGet (hDel hs k) k = none := by
  induction hs with
  | nil => rfl
  | cons p hs ih =>
    by_cases hp : p.1 = k
    · have hpk : (p.1 != k) = false := by simp [hp]
      simp only [hDel, List.filter, hpk]
      exact ih
    · have hpk : (p.1 != k) = true := by simp [hp]
      have hq : (p.1 == k) = false := by simp [hp]
      simp only [hDel, hGet, List.filter, hpk, List.find?, hq]
      exact ih

theorem hGet_hDel_ne (k k' : String) (h : k ≠ k') (hs : List (String × String)) :
    hGet (hDel hs k) k' = hGet hs k' :=
  hGet_filter_ne k k' h hs

/-! ### `filepath.Join` for rooted paths -/

/-- Split a character list into its slash-separated components (the
components of `strings.Split(s, "/")`); `acc` holds the characters of the
current component in reverse. -/
def splitCompsAux : List Char → List Char → List (List Char)
  | [], acc => [acc.reverse]
  | c :: cs, acc =>
    if c = '/' then acc.reverse :: splitCompsAux cs []
    else splitCompsAux cs (c :: acc)

/-- Join components with a single slash between them. -/
def joinComps : List (List Char) → List Char
  | [] => []
  | [c] => c
  | c :: rest => c ++ '/' :: joinComps rest

/-- One pass of `path.Clean`'s element processing for a rooted path:
empty and `"."` components are dropped, `".."` pops the previous
component (or is dropped at the root), anything else is kept. The
accumulator holds the kept components in reverse. -/
def cleanStack : List (List Char) → List (List Char) → List (List Char)
  | [], st => st.reverse
  | c :: rest, st =>
    if c = [] ∨ c = ['.'] then cleanStack rest st
    else if c = ['.', '.'] then
      cleanStack rest (match st with | [] => [] | _ :: tl => tl)
    else cleanStack rest (c :: st)

/-- Embeds `path.Clean` for a path that starts with `/` (the only case reached
here, because `goJoin` is always called with `"/"` as first element). -/
def goCleanRootedChars (cs : List Char) : List Char :=
  match cleanStack (splitCompsAux cs []) [] with
  | [] => ['/']
  | comps => '/' :: joinComps comps

/-- Embeds `filepath.Join` (Unix separator): skip leading empty elements,
join the rest with `/`, and clean the result. The program only calls it
as `filepath.Join("/", mappedPath, remainingPath)`, so the joined string
is always rooted. -/
def goJoin (elems : List String) : String :=
  match elems.dropWhile (fun e => e == "") with
  | [] => ""
  | l => String.mk (goCleanRootedChars (joinComps (l.map String.toList)))

/-! ### Requests, the Director, and the handler pipelines -/

/-- The parts of `http.Request` the program touches: `URL.Scheme`,
`URL.Host`, the `Host` field, `URL.Path` and the header map. An inbound
request received by the server has an empty `URL.Scheme`/`URL.Host`. -/
structure Request where
  scheme : String
  host : String
  hostField : String
  path : String
  headers : List (String × String)
deriving Repr, DecidableEq

/-- The `User-Agent` value of the `fixedHeaders` map. -/
def uaVal : String :=
  "Mozilla/5.0 (Windows NT 10.0; Win64; x64) AppleWebKit/537.36 (KHTML, like Gecko) Chrome/136.0.0.0 Safari/537.36"

/-- Applies the three `req.Header.Set(k, v)` calls of the
`for k, v := range fixedHeaders` loop. Go map iteration order is
unspecified, but the keys are distinct so the resulting header map does
not depend on the order; the declaration order of `fixedHeaders` is used. -/
def setFixedHeaders (hs : List (String × String)) : List (String × String) :=
  hSet (hSet (hSet hs "Host" "www.xxx.com") "User-Agent" uaVal)
    "Referer" "https://www.xxx.com"

/-- Embeds `main.go`'s `proxy.Director` (its `part_001` twin differs only
in the `Referer` literal). `target` is `url.Parse("https://www.xxx.com")`,
so scheme `https` and host `www.xxx.com`. On a route miss it only marks
the request with `X-Proxy-Invalid: 1`; on a hit it rewrites the target,
joins the new path, sets the fixed headers and deletes `Accept-Encoding`
and `If-Modified-Since`. -/
def directorMain (routes : List (String × String)) (req : Request) : Request :=
  match findRoute req.path routes with
  | (_, _, false) =>
    { req with headers := hSet req.headers "X-Proxy-Invalid" "1" }
  | (mapped, rem, true) =>
    { scheme := "https"
      host := "www.xxx.com"
      hostField := "www.xxx.com"
      path := goJoin ["/", mapped, rem]
      headers :=
        hDel (hDel (setFixedHeaders req.headers) "Accept-Encoding")
          "If-Modified-Since" }

/-- Embeds `part_002`'s `proxy.Director`: identical to `directorMain` on a
route hit, but leaves the request completely untouched on a miss. -/
def director2 (routes : List (String × String)) (req : Request) : Request :=
  match findRoute req.path routes with
  | (_, _, false) => req
  | (mapped, rem, true) =>
    { scheme := "https"
      host := "www.xxx.com"
      hostField := "www.xxx.com"
      path := goJoin ["/", mapped, rem]
      headers :=
        hDel (hDel (setFixedHeaders req.headers) "Accept-Encoding")
          "If-Modified-Since" }

/-- Outcome of one request through the handler: an immediate not-found
(404), a transport failure surfaced as 502 Bad Gateway, or a dispatch of
the rewritten request to the upstream. -/
inductive ServeOutcome where
  | notFound
  | badGateway
  | upstream (req : Request)
deriving Repr, DecidableEq

/-- Embeds `main.go`'s handler composed with
`httputil.ReverseProxy.ServeHTTP` (same shape in `part_001`): the handler
first tests the inbound `X-Proxy-Invalid` header and answers 404 if it is
`"1"`; otherwise `ServeHTTP` runs the Director on (a clone of) the
request and always hands the result to the transport, whose round trip
fails with 502 when the request URL still has no scheme (the un-rewritten
route-miss case), and reaches the upstream otherwise. -/
def serveMain (routes : List (String × String)) (r : Request) : ServeOutcome :=
  if hGet r.headers "X-Proxy-Invalid" = some "1" then .notFound
  else
    let outreq := directorMain routes r
    if outreq.scheme = "" then .badGateway else .upstream outreq

/-- Embeds `part_002`'s handler composed with
`httputil.ReverseProxy.ServeHTTP`: the handler itself calls `findRoute`
and answers 404 on a miss before the proxy runs; on a hit the Director
rewrites the request and it is dispatched. -/
def serve2 (routes : List (String × String)) (r : Request) : ServeOutcome :=
  match findRoute r.path routes with
  | (_, _, false) => .notFound
  | _ =>
    let outreq := director2 routes r
    if outreq.scheme = "" then .badGateway else .upstream outreq

/-- Claim C6: for every request whose first path segment matches a route,
the Director sets the upstream scheme and host to the fixed origin,
rewrites the path to `join("/", targetSegment, remainder)` (with the
route table `media ↦ cdn/media` and path `/media/video.mp4` this gives
`/cdn/media/video.mp4`), sets the fixed `Host`, `User-Agent` and
`Referer` headers, and deletes `Accept-Encoding` and
`If-Modified-Since`. -/
theorem directorMain_matched (routes : List (String × String)) (req : Request)
    (mapped rem : String) (h : findRoute req.path routes = (mapped, rem, true)) :
    (directorMain routes req).scheme = "https" ∧
    (directorMain routes req).host = "www.xxx.com" ∧
    (directorMain routes req).hostField = "www.xxx.com" ∧
    (directorMain routes req).path = goJoin ["/", mapped, rem] ∧
    hGet (directorMain routes req).headers "Host" = some "www.xxx.com" ∧
    hGet (directorMain routes req).headers "User-Agent" = some uaVal ∧
    hGet (directorMain routes req).headers "Referer" =
      some "https://www.xxx.com" ∧
    hGet (directorMain routes req).headers "Accept-Encoding" = none ∧
    hGet (directorMain routes req).headers "If-Modified-Since" = none ∧
    goJoin ["/", "cdn/media", "video.mp4"] = "/cdn/media/video.mp4" := by
  have hd : directorMain routes req =
      { scheme := "https"
        host := "www.xxx.com"
        hostField := "www.xxx.com"
        path := goJoin ["/", mapped, rem]
        headers :=
          hDel (hDel (setFixedHeaders req.headers) "Accept-Encoding")
            "If-Modified-Since" } := by
    unfold directorMain
    rw [h]
  rw [hd]
  unfold setFixedHeaders
  refine ⟨rfl, rfl, rfl, rfl, ?_, ?_, ?_, ?_, ?_, by decide⟩
  · rw [hGet_hDel_ne _ _ (by decide), hGet_hDel_ne _ _ (by decide),
      hGet_hSet_ne _ _ (by decide), hGet_hSet_ne _ _ (by decide),
      hGet_hSet_same]
  · rw [hGet_hDel_ne _ _ (by decide), hGet_hDel_ne _ _ (by decide),
      hGet_hSet_ne _ _ (by decide), hGet_hSet_same]
  · rw [hGet_hDel_ne _ _ (by decide), hGet_hDel_ne _ _ (by decide),
      hGet_hSet_same]
  · rw [hGet_hDel_ne _ _ (by decide), hGet_hDel_same]
  · rw [hGet_hDel_same]

/-- Witness for C6 at the route table `media ↦ cdn/media` and the request
path `/media/video.mp4` with an inbound `Accept-Encoding` header. -/
theorem directorMain_matched_witness :
    (directorMain [("media", "cdn/media")]
        ⟨"", "", "", "/media/video.mp4", [("Accept-Encoding", "gzip")]⟩).path =
      "/cdn/media/video.mp4" ∧
    hGet (directorMain [("media", "cdn/media")]
        ⟨"", "", "", "/media/video.mp4", [("Accept-Encoding", "gzip")]⟩).headers
      "Accept-Encoding" = none := by
  have h := directorMain_matched [("media", "cdn/media")]
    ⟨"", "", "", "/media/video.mp4", [("Accept-Encoding", "gzip")]⟩
    "cdn/media" "video.mp4" (by decide)
  exact ⟨h.2.2.2.1.trans h.2.2.2.2.2.2.2.2.2, h.2.2.2.2.2.2.2.1⟩

/-- Claim C9: in the marker variants (`main.go`, `part_001`), an inbound
request that already carries `X-Proxy-Invalid: 1` is answered 404 by the
handler before the proxy ever runs — for every route table, even one
whose routes match the request's first path segment. -/
theorem serveMain_marker_rejected (routes : List (String × String))
    (r : Request) (h : hGet r.headers "X-Proxy-Invalid" = some "1") :
    serveMain routes r = .notFound := by
  simp [serveMain, h]

/-- Witness for C9: a request whose first segment matches the `media`
route but which carries the marker header is still answered 404. -/
theorem serveMain_marker_rejected_witness :
    (findRoute "/media/v.mp4" [("media", "cdn/media")]).2.2 = true ∧
    serveMain [("media", "cdn/media")]
        ⟨"", "", "", "/media/v.mp4", [("X-Proxy-Invalid", "1")]⟩ = .notFound :=
  ⟨by decide,
   serveMain_marker_rejected [("media", "cdn/media")]
     ⟨"", "", "", "/media/v.mp4", [("X-Proxy-Invalid", "1")]⟩ (by decide)⟩

/-- Claim C1 (code bug): in `main.go`, an inbound request whose first path
segment is not a key of the route table and which carries no marker
header is NOT answered 404 — the handler's marker check runs before the
Director ever executes, so the request is still handed to the proxy and
fails at the transport (502 Bad Gateway). Only the `part_002` variant,
which calls `findRoute` in the handler itself, answers 404 immediately
without dispatching. Evaluated at the failing input: route table
`media ↦ cdn/media`, request path `/unknown/x`, no inbound headers. -/
theorem serveMain_unmatched_not_404 :
    serveMain [("media", "cdn/media")] ⟨"", "", "", "/unknown/x", []⟩ =
      .badGateway ∧
    serveMain [("media", "cdn/media")] ⟨"", "", "", "/unknown/x", []⟩ ≠
      .notFound ∧
    serve2 [("media", "cdn/media")] ⟨"", "", "", "/unknown/x", []⟩ =
      .notFound := by
  decide

/-! ### The response shaper (`proxy.ModifyResponse`) -/

/-- The parts of `http.Response` the shaper touches: the header map, the
declared `ContentLength` (`-1` when unknown) and the transfer-encoding
list. -/
structure Response where
  headers : List (String × String)
  contentLength : Int
  transferEncoding : List String
deriving Repr, DecidableEq

/-- Embeds `isChunked` (`part_001`/`part_002`): whether the encodings list
contains `"chunked"`. -/
def isChunked (encodings : List String) : Bool :=
  encodings.any (fun e => e == "chunked")

/-- The streaming-media content types of the chunked-transfer policy. -/
def isVideoCT (ct : String) : Prop :=
  ct = "video/mp4" ∨ ct = "video/webm" ∨ ct = "application/octet-stream"

instance (ct : String) : Decidable (isVideoCT ct) := by
  unfold isVideoCT
  infer_instance

/-- Embeds `part_002`'s `proxy.ModifyResponse` (identical in `part_001`):
if the content type is a streaming-media type or the declared length is
at least 1 MiB, and the response is not already chunked, drop
`Content-Length` and set the transfer encoding to chunked; then always
set the allow-all CORS header. -/
def shape2 (resp : Response) : Response :=
  let contentType := (hGet resp.headers "Content-Type").getD ""
  let resp1 :=
    if isVideoCT contentType ∨ 1024 * 1024 ≤ resp.contentLength then
      if isChunked resp.transferEncoding = false then
        { resp with
          headers := hDel resp.headers "Content-Length"
          transferEncoding := ["chunked"] }
      else resp
    else resp
  { resp1 with
    headers := hSet resp1.headers "Access-Control-Allow-Origin" "*" }

/-- Embeds `main.go`'s `proxy.ModifyResponse`: it only sets the allow-all
CORS header (and logs); it has no chunked-transfer logic at all. -/
def shapeMain (resp : Response) : Response :=
  { resp with
    headers := hSet resp.headers "Access-Control-Allow-Origin" "*" }

/-- Claim C7: every response processed by either variant's shaper carries
`Access-Control-Allow-Origin: *`, whatever CORS header (same, different,
or none) the upstream supplied. -/
theorem shaper_sets_cors (resp : Response) :
    hGet (shape2 resp).headers "Access-Control-Allow-Origin" = some "*" ∧
    hGet (shapeMain resp).headers "Access-Control-Allow-Origin" = some "*" :=
  ⟨hGet_hSet_same _ _ _, hGet_hSet_same _ _ _⟩

/-- Claim C2, counterexample: the claim's cited `main.go` shaper does not
implement the chunked-transfer policy — on an upstream `video/mp4`
response with `Content-Length: 2000000` it leaves the `Content-Length`
header in place and does not mark the response chunked. -/
theorem shapeMain_keeps_content_length :
    hGet (shapeMain
        ⟨[("Content-Type", "video/mp4"), ("Content-Length", "2000000")],
         2000000, []⟩).headers "Content-Length" = some "2000000" ∧
    (shapeMain
        ⟨[("Content-Type", "video/mp4"), ("Content-Length", "2000000")],
         2000000, []⟩).transferEncoding ≠ ["chunked"] := by
  decide

/-- Claim C2 (amended): in the `part_001`/`part_002` shaper, if the
declared content type is `video/mp4`, `video/webm` or
`application/octet-stream`, or the declared length is at least 1 MiB, and
the response is not already chunked, then `Content-Length` is removed and
the transfer encoding becomes chunked; when neither trigger holds (e.g.
`text/plain` with length 500000), or the response is already chunked, the
original `Content-Length` and transfer encoding are kept. The `main.go`
shaper never alters them. -/
theorem shape2_chunked_policy (resp : Response) :
    ((isVideoCT ((hGet resp.headers "Content-Type").getD "") ∨
        1024 * 1024 ≤ resp.contentLength) →
      isChunked resp.transferEncoding = false →
      hGet (shape2 resp).headers "Content-Length" = none ∧
      (shape2 resp).transferEncoding = ["chunked"]) ∧
    (¬ (isVideoCT ((hGet resp.headers "Content-Type").getD "") ∨
        1024 * 1024 ≤ resp.contentLength) →
      hGet (shape2 resp).headers "Content-Length" =
        hGet resp.headers "Content-Length" ∧
      (shape2 resp).transferEncoding = resp.transferEncoding) ∧
    (isChunked resp.transferEncoding = true →
      hGet (shape2 resp).headers "Content-Length" =
        hGet resp.headers "Content-Length" ∧
      (shape2 resp).transferEncoding = resp.transferEncoding) ∧
    (hGet (shapeMain resp).headers "Content-Length" =
        hGet resp.headers "Content-Length" ∧
      (shapeMain resp).transferEncoding = resp.transferEncoding) := by
  refine ⟨?_, ?_, ?_, ?_, ?_⟩
  · intro htrig hchunk
    simp only [shape2, htrig, hchunk, if_true, if_pos]
    constructor
    · rw [hGet_hSet_ne _ _ (by decide), hGet_hDel_same]
    · trivial
  · intro htrig
    simp only [shape2, if_neg htrig]
    constructor
    · exact hGet_hSet_ne _ _ (by decide) _ _
    · trivial
  · intro hchunk
    by_cases htrig : isVideoCT ((hGet resp.headers "Content-Type").getD "") ∨
        1024 * 1024 ≤ resp.contentLength
    · simp only [shape2, if_pos htrig, hchunk]
      constructor
      · exact hGet_hSet_ne _ _ (by decide) _ _
      · trivial
    · simp only [shape2, if_neg htrig]
      constructor
      · exact hGet_hSet_ne _ _ (by decide) _ _
      · trivial
  · exact hGet_hSet_ne _ _ (by decide) _ _
  · rfl

/-- Witness for C2 (amended): a `video/mp4` response of length 2000000
loses its `Content-Length` and becomes chunked under the
`part_001`/`part_002` shaper, while a `text/plain` response of length
500000 keeps `Content-Length: 500000`. -/
theorem shape2_chunked_policy_witness :
    hGet (shape2
        ⟨[("Content-Type", "video/mp4"), ("Content-Length", "2000000")],
         2000000, []⟩).headers "Content-Length" = none ∧
    (shape2
        ⟨[("Content-Type", "video/mp4"), ("Content-Length", "2000000")],
         2000000, []⟩).transferEncoding = ["chunked"] ∧
    hGet (shape2
        ⟨[("Content-Type", "text/plain"), ("Content-Length", "500000")],
         500000, []⟩).headers "Content-Length" = some "500000" := by
  have h1 := (shape2_chunked_policy
    ⟨[("Content-Type", "video/mp4"), ("Content-Length", "2000000")],
     2000000, []⟩).1 (by decide) (by decide)
  have h2 := ((shape2_chunked_policy
    ⟨[("Content-Type", "text/plain"), ("Content-Length", "500000")],
     500000, []⟩).2.1 (by decide)).1
  exact ⟨h1.1, h1.2, h2.trans (by decide)⟩

/-! ### The `main.go` buffer pool -/

/-- State of `main.go`'s `bufferPool`: the buffers currently held by the
underlying `sync.Pool` (each represented by its capacity, modelled as an
explicit free-list) and the `active` checked-out counter. The idle timer
only ever empties an idle pool and never affects a `Get`/`Put` pair, so
it is not part of this state. -/
structure BufState where
  pooled : List Nat
  active : Int
deriving Repr, DecidableEq

/-- Embeds `bufferPool.Get` (`main.go`): take a pooled buffer if one is
available, otherwise allocate a fresh one of exactly `size` bytes
(`sync.Pool.New`); increment `active`. Returns the buffer's capacity and
the new state. -/
def bpGet (size : Nat) (s : BufState) : Nat × BufState :=
  match s.pooled with
  | [] => (size, { pooled := [], active := s.active + 1 })
  | b :: rest => (b, { pooled := rest, active := s.active + 1 })

/-- Embeds `bufferPool.Put` (`main.go`): re-pool the buffer only when its
capacity equals the configured size (re-sliced to `size` bytes, which
keeps its capacity); always decrement `active`. -/
def bpPut (size : Nat) (buf : Nat) (s : BufState) : BufState :=
  if buf = size then { pooled := buf :: s.pooled, active := s.active - 1 }
  else { pooled := s.pooled, active := s.active - 1 }

/-- Claim C3, counterexample: acquiring from an empty pool allocates a
fresh buffer, and releasing it adds it to the pool, so the pooled-buffer
count goes from 0 to 1 instead of being restored to its pre-acquire
value. -/
theorem bufferPool_empty_roundtrip_grows :
    (bpPut (16 * 1024 * 1024)
        (bpGet (16 * 1024 * 1024) ⟨[], 0⟩).1
        (bpGet (16 * 1024 * 1024) ⟨[], 0⟩).2).pooled.length ≠
      (⟨[], 0⟩ : BufState).pooled.length := by
  decide

/-- Claim C3 (amended): for `main.go`'s buffer pool, `Get` followed by
`Put` of the acquired buffer with its capacity unmodified restores the
pooled-buffer count whenever the pool held at least one buffer (of the
configured capacity) before the `Get`; when the pool was empty, the `Get`
allocates a fresh buffer and the `Put` pools it, yielding a count of one;
and `Put` of a buffer whose capacity does not equal the configured size
never pools it — the pooled count is left unchanged. -/
theorem bufferPool_roundtrip (size : Nat) (s : BufState) :
    (s.pooled ≠ [] → (∀ b ∈ s.pooled, b = size) →
      (bpPut size (bpGet size s).1 (bpGet size s).2).pooled.length =
        s.pooled.length) ∧
    (s.pooled = [] →
      (bpPut size (bpGet size s).1 (bpGet size s).2).pooled.length = 1) ∧
    (∀ buf, buf ≠ size → (bpPut size buf s).pooled = s.pooled) := by
  refine ⟨?_, ?_, ?_⟩
  · intro hne hcap
    match hp : s.pooled with
    | [] => exact absurd hp hne
    | b :: rest =>
      have hb : b = size := hcap b (by rw [hp]; exact List.mem_cons_self b rest)
      simp [bpGet, bpPut, hp, hb]
  · intro hp
    simp [bpGet, bpPut, hp]
  · intro buf hbuf
    simp [bpPut, hbuf]

/-- Witness for C3 (amended): with configured size 2, a pool holding one
buffer of capacity 2 returns to count 1 after a `Get`/`Put` round trip,
and putting a capacity-3 buffer leaves the pool contents unchanged. -/
theorem bufferPool_roundtrip_witness :
    (bpPut 2 (bpGet 2 ⟨[2], 0⟩).1 (bpGet 2 ⟨[2], 0⟩).2).pooled.length = 1 ∧
    (bpPut 2 3 ⟨[2], 0⟩).pooled = [2] := by
  have h := bufferPool_roundtrip 2 ⟨[2], 0⟩
  exact ⟨h.1 (by decide) (by decide), h.2.2 3 (by decide)⟩

/-! ### Route loading and hot reload (`loadRoutes`) -/

/-- The process-wide route state: the active table and the modification
stamp recorded at the last successful load. -/
structure RouteState where
  routes : List (String × String)
  lastMod : Int
deriving Repr, DecidableEq

/-- The result of one `loadRoutes` call, distinguishing the three error
returns, the unchanged no-op (both return `nil` error in Go, but the
no-op performs no read and no parse) and a successful reload with its
route count. -/
inductive LoadOutcome where
  | statError
  | unchanged
  | readError
  | parseError
  | reloaded (n : Nat)
deriving Repr, DecidableEq

/-- Embeds `loadRoutes` (identical in all three variants). The filesystem
interactions are passed in as the values they produce at this call:
`stat` is `os.Stat`'s modification time (or `none` on a stat error),
`readF` is `ioutil.ReadFile`'s content (or `none` on a read error), and
`parse` abstracts `json.Unmarshal` into the `routes` field (`none` on
malformed JSON). The body mirrors the source: stat, compare
`ModTime().After(lastMod)`, read, parse, and only then replace `routes`
and `lastMod`. -/
def loadRoutes (stat : Option Int) (readF : Option String)
    (parse : String → Option (List (String × String)))
    (s : RouteState) : RouteState × LoadOutcome :=
  match stat with
  | none => (s, .statError)
  | some mt =>
    if s.lastMod < mt then
      match readF with
      | none => (s, .readError)
      | some data =>
        match parse data with
        | none => (s, .parseError)
        | some cfg => ({ routes := cfg, lastMod := mt }, .reloaded cfg.length)
    else (s, .unchanged)

/-- Claim C4: when a reload fails (stat error, read error or malformed
JSON), the active route table and the recorded modification stamp are
exactly as before the attempt, so every lookup returns the same result
as before the failed reload. -/
theorem loadRoutes_failure_keeps_state (stat : Option Int)
    (readF : Option String)
    (parse : String → Option (List (String × String)))
    (s st : RouteState) (out : LoadOutcome)
    (h : loadRoutes stat readF parse s = (st, out))
    (herr : out = .statError ∨ out = .readError ∨ out = .parseError) :
    st = s ∧ ∀ p, findRoute p st.routes = findRoute p s.routes := by
  have hst : st = s := by
    match stat with
    | none =>
      simp [loadRoutes] at h
      exact h.1.symm
    | some mt =>
      by_cases hmt : s.lastMod < mt
      · match readF with
        | none =>
          simp [loadRoutes, hmt] at h
          exact h.1.symm
        | some data =>
          match hp : parse data with
          | none =>
            simp [loadRoutes, hmt, hp] at h
            exact h.1.symm
          | some cfg =>
            simp [loadRoutes, hmt, hp] at h
            rcases herr with h1 | h1 | h1 <;> rw [h1] at h <;> simp at h
      · simp [loadRoutes, hmt] at h
        exact h.1.symm
  exact ⟨hst, fun p => by rw [hst]⟩

/-- Witness for C4: a malformed route file (every parse fails) at a newer
modification stamp leaves the table `media ↦ cdn/media` and the stamp 3
untouched, and the lookup of `/media/x` is unchanged. -/
theorem loadRoutes_failure_keeps_state_witness :
    (loadRoutes (some 9) (some "notjson") (fun _ => none)
        ⟨[("media", "cdn/media")], 3⟩).1 = ⟨[("media", "cdn/media")], 3⟩ ∧
    findRoute "/media/x"
        (loadRoutes (some 9) (some "notjson") (fun _ => none)
          ⟨[("media", "cdn/media")], 3⟩).1.routes =
      findRoute "/media/x" [("media", "cdn/media")] := by
  have h := loadRoutes_failure_keeps_state (some 9) (some "notjson")
    (fun _ => none) ⟨[("media", "cdn/media")], 3⟩
    ⟨[("media", "cdn/media")], 3⟩ .parseError (by decide)
    (Or.inr (Or.inr rfl))
  exact ⟨h.1, h.2 "/media/x"⟩

/-- Claim C8: a reload whose source modification time has not advanced
past the recorded stamp is a no-op — the state is unchanged and the
outcome is `unchanged` for every possible read result and parser, i.e.
the file is neither read nor parsed; consequently, after a successful
reload at stamp `mt`, a second reload cycle at the same stamp performs no
second parse. -/
theorem loadRoutes_unchanged_noop :
    (∀ (mt : Int) (readF : Option String)
        (parse : String → Option (List (String × String))) (s : RouteState),
      ¬ s.lastMod < mt →
      loadRoutes (some mt) readF parse s = (s, .unchanged)) ∧
    (∀ (mt : Int) (readF readF2 : Option String)
        (parse parse2 : String → Option (List (String × String)))
        (s s2 : RouteState) (n : Nat),
      loadRoutes (some mt) readF parse s = (s2, .reloaded n) →
      loadRoutes (some mt) readF2 parse2 s2 = (s2, .unchanged)) := by
  constructor
  · intro mt readF parse s hmt
    simp [loadRoutes, hmt]
  · intro mt readF readF2 parse parse2 s s2 n h
    have hs2 : s2.lastMod = mt := by
      by_cases hmt : s.lastMod < mt
      · match readF with
        | none => simp [loadRoutes, hmt] at h
        | some data =>
          match hp : parse data with
          | none => simp [loadRoutes, hmt, hp] at h
          | some cfg =>
            simp [loadRoutes, hmt, hp] at h
            obtain ⟨h1, h2⟩ := h
            rw [← h1]
      · simp [loadRoutes, hmt] at h
    simp [loadRoutes, hs2]

/-- Witness for C8: after a successful reload at stamp 7 over the empty
initial state, a second cycle at stamp 7 is a no-op `unchanged`, and the
no-op also holds directly when the stamp has not advanced. -/
theorem loadRoutes_unchanged_noop_witness :
    loadRoutes (some 7) none (fun _ => none)
        ((loadRoutes (some 7) (some "j") (fun _ => some [("m", "c")])
          ⟨[], 0⟩).1) =
      ((loadRoutes (some 7) (some "j") (fun _ => some [("m", "c")])
        ⟨[], 0⟩).1, .unchanged) ∧
    loadRoutes (some 5) (some "j") (fun _ => some [("m", "c")]) ⟨[], 5⟩ =
      (⟨[], 5⟩, .unchanged) :=
  ⟨loadRoutes_unchanged_noop.2 7 (some "j") none (fun _ => some [("m", "c")])
      (fun _ => none) ⟨[], 0⟩ ⟨[("m", "c")], 7⟩ 1 (by decide),
   loadRoutes_unchanged_noop.1 5 (some "j") (fun _ => some [("m", "c")])
      ⟨[], 5⟩ (by decide)⟩

end GoStreamProxy
